import Mathlib

/-!
Shallow embedding of the `bevy_denshi_ika_collection` repository:
the fly-camera input-to-action engine
(`crates/camera_3d_controller/src/flycam.rs`) and the spring-arm
distance resolver (`crates/camera_spring_arm/src/lib.rs`).

Rust `f32` values are idealized as real numbers `ℝ`.  Engine-provided
quaternion math (`Quat * Vec3`, `to_euler`, `from_euler`) is an external
collaborator of this repository and is kept abstract as a structure of
operations `RotOps`; the embedded code never depends on its internals.
-/

namespace DenshiIka

/-- Models `bevy::math::Vec2` (components idealized as `ℝ`). -/
structure Vec2 where
  x : ℝ
  y : ℝ

/-- Models `bevy::math::Vec3` (components idealized as `ℝ`). -/
structure Vec3 where
  x : ℝ
  y : ℝ
  z : ℝ

/-- Componentwise addition, `Vec2 + Vec2`. -/
def Vec2.add (a b : Vec2) : Vec2 := ⟨a.x + b.x, a.y + b.y⟩

/-- `Vec2::ZERO`, the additive identity used by `.sum::<Vec2>()`. -/
def Vec2.zero : Vec2 := ⟨0, 0⟩

/-- Models Rust's `Iterator::sum::<Vec2>()`: fold of `+` from `Vec2::ZERO`. -/
def Vec2.listSum (l : List Vec2) : Vec2 := l.foldl Vec2.add Vec2.zero

/-- Componentwise addition, `Vec3 + Vec3`. -/
def Vec3.add (a b : Vec3) : Vec3 := ⟨a.x + b.x, a.y + b.y, a.z + b.z⟩

/-- Scalar multiplication `Vec3 * f32`. -/
def Vec3.smul (v : Vec3) (s : ℝ) : Vec3 := ⟨v.x * s, v.y * s, v.z * s⟩

/-- Negation `-Vec3`. -/
def Vec3.neg (v : Vec3) : Vec3 := ⟨-v.x, -v.y, -v.z⟩

/-- `Vec3::ZERO`. -/
def Vec3.zero : Vec3 := ⟨0, 0, 0⟩

/-- `Vec3::X`. -/
def Vec3.X : Vec3 := ⟨1, 0, 0⟩

/-- `Vec3::Y`. -/
def Vec3.Y : Vec3 := ⟨0, 1, 0⟩

/-- `Vec3::Z`. -/
def Vec3.Z : Vec3 := ⟨0, 0, 1⟩

/-- `Vec3::NEG_X`. -/
def Vec3.NEG_X : Vec3 := ⟨-1, 0, 0⟩

/-- `Vec3::NEG_Y`. -/
def Vec3.NEG_Y : Vec3 := ⟨0, -1, 0⟩

/-- `Vec3::NEG_Z`. -/
def Vec3.NEG_Z : Vec3 := ⟨0, 0, -1⟩

/-- The key codes referenced by the repository (subset of `bevy` `KeyCode`). -/
inductive KeyCode where
  | Z | S | Q | D | W
  | ControlLeft | Space | ShiftLeft
  | Key0 | Key1 | Key2 | Key3 | Key4 | Key5 | Key6 | Key7 | Key8 | Key9
deriving DecidableEq, Repr

/-- The mouse buttons referenced by the repository (subset of `bevy` `MouseButton`). -/
inductive MouseButton where
  | Left | Right | Middle
deriving DecidableEq, Repr

/-- Models the Rust enum `FlyCameraInput` from `flycam.rs` (one condition). -/
inductive FlyCameraInput where
  | keyCode (keycode : KeyCode) (first_frame : Bool)
  | mouseButton (mouse_button : MouseButton) (first_frame : Bool)
  | mouseMoveX
  | mouseMoveY
  | scrollX
  | scrollY
deriving DecidableEq, Repr

/-- Models the Rust enum `FlyCameraAction` from `flycam.rs`. -/
inductive FlyCameraAction where
  | moveLocal (x : Vec3)
  | moveGlobal (x : Vec3)
  | rotateEuler (x : Vec3)
  | changeSpeed (x : ℝ)
  | setSpeed (x : ℝ)

/-- One binding rule: a condition set paired with an action
(`(Vec<FlyCameraInput>, FlyCameraAction)` in the source). -/
abbrev FlyCameraRule := List FlyCameraInput × FlyCameraAction

/-- Models `FlyCameraInputs` (newtype over `Vec<(Vec<FlyCameraInput>, FlyCameraAction)>`;
the field `rules` models the tuple field `.0`). -/
structure FlyCameraInputs where
  rules : List FlyCameraRule

/-- The per-frame input snapshot consumed by `fly_camera_controller`:
key/button predicates from `Res<Input<_>>`, the frames `MouseMotion` and
`MouseWheel` event lists, and `time.delta_seconds()`. -/
structure InputState where
  keyPressed : KeyCode → Bool
  keyJustPressed : KeyCode → Bool
  buttonPressed : MouseButton → Bool
  buttonJustPressed : MouseButton → Bool
  mouseEvents : List Vec2
  wheelEvents : List Vec2
  delta_seconds : ℝ

/-- `let mouse_delta = mouse_deltas.read().map(|delta| delta.delta).sum::<Vec2>();` -/
def mouse_delta (st : InputState) : Vec2 := Vec2.listSum st.mouseEvents

/-- `let wheel_delta = wheel_deltas.read().map(|wheel| vec2(wheel.x, wheel.y)).sum::<Vec2>();` -/
def wheel_delta (st : InputState) : Vec2 := Vec2.listSum st.wheelEvents

/-- The contribution of one condition, from the `match input` arms inside
`fly_camera_controller`: an edge-triggered (`first_frame = true`) key/button
contributes `Some(1.0)` exactly when just pressed, a level-triggered one
exactly when currently pressed, and a continuous axis always contributes the
frames summed delta on that axis. -/
def resolve_input (st : InputState) : FlyCameraInput → Option ℝ
  | .keyCode keycode first_frame =>
      if first_frame then
        if st.keyJustPressed keycode then some 1 else none
      else
        if st.keyPressed keycode then some 1 else none
  | .mouseButton mouse_button first_frame =>
      if first_frame then
        if st.buttonJustPressed mouse_button then some 1 else none
      else
        if st.buttonPressed mouse_button then some 1 else none
  | .mouseMoveX => some (mouse_delta st).x
  | .mouseMoveY => some (mouse_delta st).y
  | .scrollX => some (wheel_delta st).x
  | .scrollY => some (wheel_delta st).y

/-- Whether evaluating this condition executes `apply_delta = false` in the
source (the edge-triggered arms do so exactly when they yield `Some(1.0)`). -/
def input_clears_delta (st : InputState) : FlyCameraInput → Bool
  | .keyCode keycode first_frame => first_frame && st.keyJustPressed keycode
  | .mouseButton mouse_button first_frame => first_frame && st.buttonJustPressed mouse_button
  | _ => false

/-- Models `input.into_iter().map(...).product::<Option<f32>>()`: the product
of the contributions, short-circuiting to `none` at the first absent one. -/
def resolve_set (st : InputState) : List FlyCameraInput → Option ℝ
  | [] => some 1
  | c :: rest =>
      match resolve_input st c with
      | none => none
      | some v =>
          match resolve_set st rest with
          | none => none
          | some p => some (v * p)

/-- The value of the mutable flag `apply_delta` after the whole condition set
has been evaluated (it starts `true` and each edge-triggered condition that
fires sets it `false`; it is only consulted when the product is `Some`, in
which case every condition was evaluated). -/
def apply_delta_after (st : InputState) (conds : List FlyCameraInput) : Bool :=
  conds.all fun c => !(input_clears_delta st c)

/-- The engine-provided rotation operations, kept abstract: `mulVec` models
`Quat * Vec3`, `to_euler` models `Quat::to_euler(EulerRot::default())`,
`from_euler` models `Quat::from_euler(EulerRot::default(), x, y, z)`. -/
structure RotOps (Rot : Type) where
  mulVec : Rot → Vec3 → Vec3
  to_euler : Rot → Vec3
  from_euler : Vec3 → Rot

/-- Models `bevy` `Transform` as consumed by `fly_camera_controller`
(translation and rotation; scale is never touched). -/
structure Transform (Rot : Type) where
  translation : Vec3
  rotation : Rot

/-- Models the component `FlyCameraController`. -/
structure FlyCameraController where
  speed : ℝ
  inputs : FlyCameraInputs

/-- The body of the `match action` in `fly_camera_controller`, applied to the
state `(speed, transform)` of one camera.  `sum` is the resolved product and
`apply_delta` the flag after evaluation; the local
`let speed = sum * controller.speed * (if apply_delta { dt } else { 1.0 })`
is the effective scalar. -/
noncomputable def apply_action {Rot : Type} (ops : RotOps Rot) (delta_seconds : ℝ)
    (sum : ℝ) (apply_delta : Bool) (action : FlyCameraAction)
    (s : ℝ × Transform Rot) : ℝ × Transform Rot :=
  let speed := sum * s.1 * (if apply_delta then delta_seconds else 1)
  match action with
  | .moveLocal x =>
      (s.1, { s.2 with
        translation := s.2.translation.add ((ops.mulVec s.2.rotation x).smul speed) })
  | .moveGlobal x =>
      (s.1, { s.2 with translation := s.2.translation.add (x.smul speed) })
  | .rotateEuler x =>
      let euler := ops.to_euler s.2.rotation
      let new_euler := euler.add (x.smul sum)
      (s.1, { s.2 with rotation := ops.from_euler new_euler })
  | .changeSpeed x => (Real.exp (Real.log s.1 + x * sum), s.2)
  | .setSpeed x => (x * sum, s.2)

/-- One iteration of the inner `for (input, action)` loop: resolve the
condition set; on `None` `continue` (no mutation), otherwise apply the action. -/
noncomputable def step_rule {Rot : Type} (ops : RotOps Rot) (st : InputState)
    (rule : FlyCameraRule) (s : ℝ × Transform Rot) : ℝ × Transform Rot :=
  match resolve_set st rule.1 with
  | none => s
  | some sum => apply_action ops st.delta_seconds sum (apply_delta_after st rule.1) rule.2 s

/-- The system `fly_camera_controller`, for one camera entity: fold the rule
step over the cameras binding table in order. -/
noncomputable def fly_camera_controller {Rot : Type} (ops : RotOps Rot) (st : InputState)
    (controller : FlyCameraController) (transform : Transform Rot) :
    FlyCameraController × Transform Rot :=
  let out := controller.inputs.rules.foldl
    (fun s rule => step_rule ops st rule s) (controller.speed, transform)
  ({ controller with speed := out.1 }, out.2)

/-- The default binding table, `impl Default for FlyCameraInputs` in
`flycam.rs`, rule for rule with the source's constants. -/
def FlyCameraInputs.default : FlyCameraInputs :=
  ⟨[ ([.keyCode .Z false], .moveLocal Vec3.NEG_Z),
     ([.keyCode .S false], .moveLocal Vec3.Z),
     ([.keyCode .Q false], .moveLocal Vec3.NEG_X),
     ([.keyCode .D false], .moveLocal Vec3.X),
     ([.keyCode .ControlLeft false], .moveLocal Vec3.NEG_Y),
     ([.keyCode .Space false], .moveLocal Vec3.Y),
     ([.keyCode .Z false, .keyCode .ShiftLeft false], .moveLocal (Vec3.NEG_Z.smul 2)),
     ([.keyCode .S false, .keyCode .ShiftLeft false], .moveLocal (Vec3.Z.smul 2)),
     ([.keyCode .Q false, .keyCode .ShiftLeft false], .moveLocal (Vec3.NEG_X.smul 2)),
     ([.keyCode .D false, .keyCode .ShiftLeft false], .moveLocal (Vec3.X.smul 2)),
     ([.keyCode .ControlLeft false, .keyCode .ShiftLeft false], .moveLocal (Vec3.NEG_Y.smul 2)),
     ([.keyCode .Space false, .keyCode .ShiftLeft false], .moveLocal (Vec3.Y.smul 2)),
     ([.keyCode .W true], .moveLocal (Vec3.NEG_Z.smul 5)),
     ([.mouseMoveX, .mouseButton .Right false], .rotateEuler (Vec3.X.neg.smul 0.002)),
     ([.mouseMoveY, .mouseButton .Right false], .rotateEuler (Vec3.Y.neg.smul 0.002)),
     ([.scrollY], .changeSpeed (-0.05)),
     ([.keyCode .Key0 true], .setSpeed 0.3125),
     ([.keyCode .Key1 true], .setSpeed 0.0625),
     ([.keyCode .Key2 true], .setSpeed 0.125),
     ([.keyCode .Key3 true], .setSpeed 0.25),
     ([.keyCode .Key4 true], .setSpeed 0.5),
     ([.keyCode .Key5 true], .setSpeed 1.0),
     ([.keyCode .Key6 true], .setSpeed 2.0),
     ([.keyCode .Key7 true], .setSpeed 4.0),
     ([.keyCode .Key8 true], .setSpeed 8.0),
     ([.keyCode .Key9 true], .setSpeed 16.0) ]⟩

/-- Models `bevy_xpbd_3d` `SpatialQueryFilter` as an opaque pass-through token:
the repository only ever clones it into the shape caster, never reads it. -/
structure SpatialQueryFilter where
  tag : Nat
deriving DecidableEq, Repr

/-- Models the `bevy_xpbd_3d` `Collider` constructors used by the repository. -/
inductive Collider where
  | ball (radius : ℝ)

/-- The fields of the `bevy_xpbd_3d` `ShapeCaster` written or read by the
repository. -/
structure ShapeCaster where
  query_filter : SpatialQueryFilter
  max_time_of_impact : ℝ
  shape : Collider
  max_hits : Nat
  origin : Vec3
  direction : Vec3

/-- One entry of `ShapeHits`: the repository reads only `time_of_impact`. -/
structure ShapeHitData where
  time_of_impact : ℝ

/-- Models the component `CameraSpringArm` from `camera_spring_arm/src/lib.rs`. -/
structure CameraSpringArm where
  distance : ℝ
  yaw : ℝ
  pitch : ℝ
  camera_yaw : ℝ
  camera_pitch : ℝ
  camera_roll : ℝ
  camera_radius : ℝ
  query_filter : SpatialQueryFilter

/-- The system `update_camera_spring_arm_shape_raycaster`, for one entity:
copy configuration into the shape caster. -/
def update_camera_spring_arm_shape_raycaster (camera : CameraSpringArm)
    (shape_caster : ShapeCaster) : ShapeCaster :=
  { shape_caster with
    query_filter := camera.query_filter
    max_time_of_impact := camera.distance
    shape := Collider.ball camera.camera_radius
    max_hits := 1 }

/-- The system `update_camera_spring_arm_shape_caster_transform`, for one
entity: `origin = -translation`, `direction = -forward` (the entity's
transform supplies `translation` and `forward()`). -/
def update_camera_spring_arm_shape_caster_transform (translation forward : Vec3)
    (shape_caster : ShapeCaster) : ShapeCaster :=
  { shape_caster with origin := translation.neg, direction := forward.neg }

/-- The system `update_camera_spring_arm`, for one entity: the new camera
translation is the cast direction scaled by the first hit's time of impact,
or by the configured distance when there is no hit. -/
def update_camera_spring_arm (camera_spring_arm : CameraSpringArm)
    (shape_caster : ShapeCaster) (hits : List ShapeHitData) : Vec3 :=
  let time_of_impact :=
    match hits.head? with
    | some hit => hit.time_of_impact
    | none => camera_spring_arm.distance
  shape_caster.direction.smul time_of_impact
/-! Helper predicates and concrete instances used to state theorems and
build witnesses. -/

/-- The continuous-axis conditions (spec vocabulary). -/
def isContinuousAxis : FlyCameraInput → Bool
  | .mouseMoveX => true
  | .mouseMoveY => true
  | .scrollX => true
  | .scrollY => true
  | _ => false

/-- The boolean (key/button state) conditions (spec vocabulary). -/
def isBooleanCond : FlyCameraInput → Bool
  | .keyCode _ _ => true
  | .mouseButton _ _ => true
  | _ => false

/-- A trivial instance of the abstract rotation operations, for concrete
evaluations. -/
def trivialRotOps : RotOps Unit :=
  { mulVec := fun _ v => v, to_euler := fun _ => Vec3.zero, from_euler := fun _ => () }

/-- An input snapshot with nothing pressed, no events and unit frame time. -/
def stInert : InputState :=
  { keyPressed := fun _ => false
    keyJustPressed := fun _ => false
    buttonPressed := fun _ => false
    buttonJustPressed := fun _ => false
    mouseEvents := []
    wheelEvents := []
    delta_seconds := 1 }

/-- A concrete spring-arm configuration with `distance = 10`. -/
def arm10 : CameraSpringArm :=
  { distance := 10, yaw := 0, pitch := 0, camera_yaw := 0, camera_pitch := 0
    camera_roll := 0, camera_radius := 1, query_filter := ⟨0⟩ }

/-- A concrete shape caster. -/
def sc0 : ShapeCaster :=
  { query_filter := ⟨0⟩, max_time_of_impact := 0, shape := .ball 1, max_hits := 0
    origin := Vec3.zero, direction := Vec3.Z }

/-! Helper lemmas about condition-set resolution. -/

/-- Unfolding equation for `resolve_set` on a nonempty condition set. -/
lemma resolve_set_cons (st : InputState) (c : FlyCameraInput) (rest : List FlyCameraInput) :
    resolve_set st (c :: rest) =
      match resolve_input st c, resolve_set st rest with
      | some v, some p => some (v * p)
      | _, _ => none := by
  simp only [resolve_set]
  cases resolve_input st c <;> cases resolve_set st rest <;> rfl

/-- A condition set resolves absent exactly when one of its conditions does. -/
lemma resolve_set_eq_none_iff (st : InputState) (conds : List FlyCameraInput) :
    resolve_set st conds = none ↔ ∃ c ∈ conds, resolve_input st c = none := by
  induction conds with
  | nil => simp [resolve_set]
  | cons c rest ih =>
    rw [resolve_set_cons]
    cases hc : resolve_input st c with
    | none => simp [hc]
    | some v =>
      cases hr : resolve_set st rest with
      | none =>
        simp only [List.mem_cons]
        constructor
        · intro _
          obtain ⟨c', hc', habs⟩ := ih.mp hr
          exact ⟨c', Or.inr hc', habs⟩
        · intro _; trivial
      | some p =>
        simp only [List.mem_cons]
        constructor
        · intro h; exact absurd h (by simp)
        · rintro ⟨c', hc' | hc', habs⟩
          · subst hc'; rw [hc] at habs; exact absurd habs (by simp)
          · exact absurd (ih.mpr ⟨c', hc', habs⟩) (by simp [hr])

/-- A resolved condition set's value is the product of its contributions. -/
lemma resolve_set_eq_some_prod (st : InputState) :
    ∀ (conds : List FlyCameraInput) (v : ℝ), resolve_set st conds = some v →
      v = (conds.map fun c => (resolve_input st c).getD 0).prod := by
  intro conds
  induction conds with
  | nil => intro v hv; simp [resolve_set] at hv; simp [hv.symm]
  | cons c rest ih =>
    intro v hv
    rw [resolve_set_cons] at hv
    cases hc : resolve_input st c with
    | none => rw [hc] at hv; exact absurd hv (by simp)
    | some w =>
      rw [hc] at hv
      cases hr : resolve_set st rest with
      | none => rw [hr] at hv; exact absurd hv (by simp)
      | some p =>
        rw [hr] at hv
        simp only [Option.some.injEq] at hv
        simp [← hv, hc, ← ih p hr]

/-- In a resolved condition set every condition resolved to a value. -/
lemma resolve_input_ne_none_of_mem (st : InputState) (conds : List FlyCameraInput)
    (v : ℝ) (hv : resolve_set st conds = some v) :
    ∀ c ∈ conds, resolve_input st c ≠ none := by
  intro c hc habs
  have : resolve_set st conds = none := (resolve_set_eq_none_iff st conds).mpr ⟨c, hc, habs⟩
  rw [hv] at this
  exact absurd this (by simp)

/-- A member condition that fired its edge forces `apply_delta = false`. -/
lemma apply_delta_after_eq_false (st : InputState) (conds : List FlyCameraInput)
    (c : FlyCameraInput) (hc : c ∈ conds) (h : input_clears_delta st c = true) :
    apply_delta_after st conds = false := by
  unfold apply_delta_after
  rw [List.all_eq_false]
  exact ⟨c, hc, by simp [h]⟩

/-- A key/button condition only ever contributes the value `1`. -/
lemma resolve_input_eq_one_of_bool (st : InputState) (c : FlyCameraInput)
    (hb : isBooleanCond c = true) (v : ℝ) (hv : resolve_input st c = some v) :
    v = 1 := by
  cases c with
  | keyCode k ff =>
    cases ff <;> simp only [resolve_input] at hv <;> split at hv <;> simp_all
  | mouseButton b ff =>
    cases ff <;> simp only [resolve_input] at hv <;> split at hv <;> simp_all
  | mouseMoveX => simp [isBooleanCond] at hb
  | mouseMoveY => simp [isBooleanCond] at hb
  | scrollX => simp [isBooleanCond] at hb
  | scrollY => simp [isBooleanCond] at hb

/-! Claim theorems. -/

/-- C1: a rule whose condition set has an absent condition (level-triggered
key/button not held, or edge-triggered key/button not just pressed) is skipped
for the frame without mutating speed or transform; otherwise its resolved value
is the product of the contributions, where a satisfied key/button condition
contributes `1.0` and a continuous-axis condition contributes the frame's
summed delta on that axis. -/
theorem C1_rule_skip_and_product (st : InputState) (conds : List FlyCameraInput) :
    (resolve_set st conds = none ↔ ∃ c ∈ conds, resolve_input st c = none)
    ∧ (∀ v : ℝ, resolve_set st conds = some v →
        v = (conds.map fun c => (resolve_input st c).getD 0).prod)
    ∧ (∀ (Rot : Type) (ops : RotOps Rot) (action : FlyCameraAction)
        (s : ℝ × Transform Rot),
        resolve_set st conds = none → step_rule ops st (conds, action) s = s)
    ∧ (∀ (c : FlyCameraInput), isBooleanCond c = true →
        ∀ v : ℝ, resolve_input st c = some v → v = 1)
    ∧ (∀ k, resolve_input st (.keyCode k false) = none ↔ st.keyPressed k = false)
    ∧ (∀ k, resolve_input st (.keyCode k true) = none ↔ st.keyJustPressed k = false)
    ∧ (∀ b, resolve_input st (.mouseButton b false) = none ↔ st.buttonPressed b = false)
    ∧ (∀ b, resolve_input st (.mouseButton b true) = none ↔ st.buttonJustPressed b = false)
    ∧ resolve_input st .mouseMoveX = some (mouse_delta st).x
    ∧ resolve_input st .mouseMoveY = some (mouse_delta st).y
    ∧ resolve_input st .scrollX = some (wheel_delta st).x
    ∧ resolve_input st .scrollY = some (wheel_delta st).y := by
  refine ⟨resolve_set_eq_none_iff st conds, resolve_set_eq_some_prod st conds,
    ?_, resolve_input_eq_one_of_bool st, ?_, ?_, ?_, ?_, rfl, rfl, rfl, rfl⟩
  · intro Rot ops action s h
    simp [step_rule, h]
  · intro k; simp [resolve_input]
  · intro k; simp [resolve_input]
  · intro b; simp [resolve_input]
  · intro b; simp [resolve_input]

/-- C1 witness: with nothing pressed, the rule on a level-triggered `Z` key is
skipped. -/
theorem C1_witness :
    resolve_set stInert [FlyCameraInput.keyCode KeyCode.Z false] = none :=
  (C1_rule_skip_and_product stInert [FlyCameraInput.keyCode KeyCode.Z false]).1.mpr
    ⟨FlyCameraInput.keyCode KeyCode.Z false, by simp, by simp [resolve_input, stInert]⟩

/-- C2: with `effective = resolved_value * current_speed * (1 if instantaneous
else elapsed frame time)`, MoveLocal/MoveGlobal displace by the action vector
times `effective`, while RotateEuler adds its axis vector scaled by the raw
resolved value and ChangeSpeed/SetSpeed also use only the raw resolved value. -/
theorem C2_effective_scaling (Rot : Type) (ops : RotOps Rot) (dt resolved : ℝ)
    (instantaneous : Bool) (s : ℝ × Transform Rot) (x : Vec3) (d t : ℝ) :
    (apply_action ops dt resolved (!instantaneous) (.moveLocal x) s).2.translation
        = s.2.translation.add ((ops.mulVec s.2.rotation x).smul
            (resolved * s.1 * (if instantaneous then 1 else dt)))
    ∧ (apply_action ops dt resolved (!instantaneous) (.moveGlobal x) s).2.translation
        = s.2.translation.add (x.smul
            (resolved * s.1 * (if instantaneous then 1 else dt)))
    ∧ (apply_action ops dt resolved (!instantaneous) (.rotateEuler x) s).2.rotation
        = ops.from_euler ((ops.to_euler s.2.rotation).add (x.smul resolved))
    ∧ (apply_action ops dt resolved (!instantaneous) (.changeSpeed d) s).1
        = Real.exp (Real.log s.1 + d * resolved)
    ∧ (apply_action ops dt resolved (!instantaneous) (.setSpeed t) s).1
        = t * resolved := by
  cases instantaneous <;> simp [apply_action]

/-- C3: the spring-arm resolver sets the camera translation to the cast
direction scaled by the first hit's time of impact when hits exist, and by the
configured distance otherwise; with hits at `[2, 5]` and `distance = 10` it
selects `2`, with no hits exactly `10`; the shape caster is configured with
`max_hits = 1` and maximal time of impact equal to the configured distance. -/
theorem C3_spring_arm_distance (arm : CameraSpringArm) (sc : ShapeCaster) :
    (∀ (hit : ShapeHitData) (rest : List ShapeHitData),
        update_camera_spring_arm arm sc (hit :: rest)
          = sc.direction.smul hit.time_of_impact)
    ∧ update_camera_spring_arm arm sc [] = sc.direction.smul arm.distance
    ∧ (arm.distance = 10 →
        update_camera_spring_arm arm sc [⟨2⟩, ⟨5⟩] = sc.direction.smul 2
        ∧ update_camera_spring_arm arm sc [] = sc.direction.smul 10)
    ∧ (update_camera_spring_arm_shape_raycaster arm sc).max_hits = 1
    ∧ (update_camera_spring_arm_shape_raycaster arm sc).max_time_of_impact
        = arm.distance := by
  refine ⟨fun hit rest => rfl, rfl, fun h => ⟨rfl, ?_⟩, rfl, rfl⟩
  simp [update_camera_spring_arm, h]

/-- C3 witness: the concrete spring arm with `distance = 10` selects `2` from
hits `[2, 5]` and `10` from no hits. -/
theorem C3_witness :
    update_camera_spring_arm arm10 sc0 [⟨2⟩, ⟨5⟩] = sc0.direction.smul 2
    ∧ update_camera_spring_arm arm10 sc0 [] = sc0.direction.smul 10 :=
  (C3_spring_arm_distance arm10 sc0).2.2.1 rfl

/-- C5: the default table's ten edge-triggered number-key rules are exactly
these, and the `Key0` target `0.3125` exceeds the `Key1` target `0.0625`, so
the targets are neither monotonically increasing with key index nor one
geometric progression across the ten keys. -/
theorem C5_default_number_key_rules :
    FlyCameraInputs.default.rules.drop 16 =
      [ ([.keyCode .Key0 true], .setSpeed 0.3125),
        ([.keyCode .Key1 true], .setSpeed 0.0625),
        ([.keyCode .Key2 true], .setSpeed 0.125),
        ([.keyCode .Key3 true], .setSpeed 0.25),
        ([.keyCode .Key4 true], .setSpeed 0.5),
        ([.keyCode .Key5 true], .setSpeed 1.0),
        ([.keyCode .Key6 true], .setSpeed 2.0),
        ([.keyCode .Key7 true], .setSpeed 4.0),
        ([.keyCode .Key8 true], .setSpeed 8.0),
        ([.keyCode .Key9 true], .setSpeed 16.0) ]
    ∧ (0.0625 : ℝ) < 0.3125 :=
  ⟨rfl, by norm_num⟩

/-- C9: each action variant mutates only its own part of the camera state:
the move actions leave rotation and speed unchanged, RotateEuler leaves
translation and speed unchanged, and the speed actions leave the whole
transform unchanged. -/
theorem C9_frame_effects (Rot : Type) (ops : RotOps Rot) (dt sum : ℝ)
    (apply_delta : Bool) (s : ℝ × Transform Rot) (x : Vec3) (d t : ℝ) :
    ((apply_action ops dt sum apply_delta (.moveLocal x) s).1 = s.1
      ∧ (apply_action ops dt sum apply_delta (.moveLocal x) s).2.rotation
          = s.2.rotation)
    ∧ ((apply_action ops dt sum apply_delta (.moveGlobal x) s).1 = s.1
      ∧ (apply_action ops dt sum apply_delta (.moveGlobal x) s).2.rotation
          = s.2.rotation)
    ∧ ((apply_action ops dt sum apply_delta (.rotateEuler x) s).1 = s.1
      ∧ (apply_action ops dt sum apply_delta (.rotateEuler x) s).2.translation
          = s.2.translation)
    ∧ (apply_action ops dt sum apply_delta (.changeSpeed d) s).2 = s.2
    ∧ (apply_action ops dt sum apply_delta (.setSpeed t) s).2 = s.2 :=
  ⟨⟨rfl, rfl⟩, ⟨rfl, rfl⟩, ⟨rfl, rfl⟩, rfl, rfl⟩

/-- An input snapshot with every key and button both held and just pressed. -/
def stAll : InputState :=
  { keyPressed := fun _ => true
    keyJustPressed := fun _ => true
    buttonPressed := fun _ => true
    buttonJustPressed := fun _ => true
    mouseEvents := []
    wheelEvents := []
    delta_seconds := 1 }

/-- C4: a rule with an edge-triggered key/button condition is skipped on every
frame where that key/button is not just pressed (in particular on held frames
after the transition), and whenever such a rule resolves, the `apply_delta`
flag is `false`, i.e. its timing mode is instantaneous. -/
theorem C4_edge_trigger (st : InputState) (conds : List FlyCameraInput) :
    (∀ k, FlyCameraInput.keyCode k true ∈ conds → st.keyJustPressed k = false →
        resolve_set st conds = none)
    ∧ (∀ b, FlyCameraInput.mouseButton b true ∈ conds →
        st.buttonJustPressed b = false → resolve_set st conds = none)
    ∧ (∀ v : ℝ, resolve_set st conds = some v →
        ((∃ k, FlyCameraInput.keyCode k true ∈ conds)
          ∨ (∃ b, FlyCameraInput.mouseButton b true ∈ conds)) →
        apply_delta_after st conds = false) := by
  refine ⟨?_, ?_, ?_⟩
  · intro k hk h
    exact (resolve_set_eq_none_iff st conds).mpr
      ⟨FlyCameraInput.keyCode k true, hk, by simp [resolve_input, h]⟩
  · intro b hb h
    exact (resolve_set_eq_none_iff st conds).mpr
      ⟨FlyCameraInput.mouseButton b true, hb, by simp [resolve_input, h]⟩
  · intro v hv hedge
    rcases hedge with ⟨k, hk⟩ | ⟨b, hb⟩
    · have hne := resolve_input_ne_none_of_mem st conds v hv _ hk
      have hjp : st.keyJustPressed k = true := by
        cases h : st.keyJustPressed k
        · exact absurd (by simp [resolve_input, h]) hne
        · rfl
      exact apply_delta_after_eq_false st conds _ hk
        (by simp [input_clears_delta, hjp])
    · have hne := resolve_input_ne_none_of_mem st conds v hv _ hb
      have hjp : st.buttonJustPressed b = true := by
        cases h : st.buttonJustPressed b
        · exact absurd (by simp [resolve_input, h]) hne
        · rfl
      exact apply_delta_after_eq_false st conds _ hb
        (by simp [input_clears_delta, hjp])

/-- C4 witness: an edge-triggered rule on `W` that resolves (key just pressed)
has `apply_delta = false`, and with nothing just pressed it is skipped. -/
theorem C4_witness :
    apply_delta_after stAll [FlyCameraInput.keyCode KeyCode.W true] = false :=
  (C4_edge_trigger stAll [FlyCameraInput.keyCode KeyCode.W true]).2.2 (1 * 1) rfl
    (Or.inl ⟨KeyCode.W, by simp⟩)

/-- Scaling by zero yields the zero vector. -/
lemma Vec3.smul_zero (v : Vec3) : v.smul 0 = Vec3.zero := by
  simp [Vec3.smul, Vec3.zero]

/-- Adding the zero vector is the identity. -/
lemma Vec3.add_zero (v : Vec3) : v.add Vec3.zero = v := by
  simp [Vec3.add, Vec3.zero]

/-- With both per-frame deltas zero, every continuous-axis condition
contributes `some 0`. -/
lemma resolve_input_continuous_zero (st : InputState)
    (h1 : mouse_delta st = Vec2.zero) (h2 : wheel_delta st = Vec2.zero)
    (c : FlyCameraInput) (hc : isContinuousAxis c = true) :
    resolve_input st c = some 0 := by
  cases c <;> simp_all [isContinuousAxis, resolve_input, Vec2.zero]

/-- A nonempty condition set whose conditions all contribute `some 0`
resolves to `some 0`. -/
lemma resolve_set_eq_zero (st : InputState) :
    ∀ (conds : List FlyCameraInput), conds ≠ [] →
      (∀ c ∈ conds, resolve_input st c = some 0) →
      resolve_set st conds = some 0 := by
  intro conds
  induction conds with
  | nil => intro h; exact absurd rfl h
  | cons c rest ih =>
    intro _ hall
    rw [resolve_set_cons, hall c (by simp)]
    cases rest with
    | nil => simp [resolve_set]
    | cons c2 r2 =>
      rw [ih (by simp) (fun c' hc' => hall c' (List.mem_cons_of_mem _ hc'))]
      simp

/-- C7: a nonempty rule whose conditions are all continuous axes is not
skipped when the frame's deltas are all zero: it resolves with value `0`,
and the move actions applied with resolved value `0` leave the translation
unchanged. -/
theorem C7_zero_delta (st : InputState) (conds : List FlyCameraInput) :
    (conds ≠ [] → (∀ c ∈ conds, isContinuousAxis c = true) →
        mouse_delta st = Vec2.zero → wheel_delta st = Vec2.zero →
        resolve_set st conds = some 0)
    ∧ (∀ (Rot : Type) (ops : RotOps Rot) (dt : ℝ) (apply_delta : Bool)
        (x : Vec3) (s : ℝ × Transform Rot),
        (apply_action ops dt 0 apply_delta (.moveLocal x) s).2.translation
            = s.2.translation
        ∧ (apply_action ops dt 0 apply_delta (.moveGlobal x) s).2.translation
            = s.2.translation) := by
  constructor
  · intro hne hall h1 h2
    exact resolve_set_eq_zero st conds hne
      (fun c hc => resolve_input_continuous_zero st h1 h2 c (hall c hc))
  · intro Rot ops dt apply_delta x s
    constructor <;>
      simp [apply_action, zero_mul, Vec3.smul_zero, Vec3.add_zero]

/-- C7 witness: with no motion or scroll events, a rule on `MouseMoveX` and
`ScrollY` resolves to `0` rather than being skipped. -/
theorem C7_witness :
    resolve_set stInert [FlyCameraInput.mouseMoveX, FlyCameraInput.scrollY]
      = some 0 :=
  (C7_zero_delta stInert
      [FlyCameraInput.mouseMoveX, FlyCameraInput.scrollY]).1
    (by decide) (by decide) rfl rfl

/-- C6: a ChangeSpeed(d) application with resolved value `r` multiplies a
positive speed by `exp (d * r)`, and applying it for `n` consecutive frames
with resolved value `1` yields `speed_0 * exp (n * d)` (independent of order,
being repeated multiplication by the same factor). -/
theorem C6_change_speed_exp (Rot : Type) (ops : RotOps Rot) (dt d r s0 : ℝ)
    (ad : Bool) (tf : Transform Rot) (n : ℕ) :
    (0 < s0 → (apply_action ops dt r ad (.changeSpeed d) (s0, tf)).1
        = s0 * Real.exp (d * r))
    ∧ (0 < s0 →
        (fun s => (apply_action ops dt 1 ad (.changeSpeed d) (s, tf)).1)^[n] s0
          = s0 * Real.exp (n * d)) := by
  have hstep : ∀ s : ℝ, (apply_action ops dt 1 ad (.changeSpeed d) (s, tf)).1
      = Real.exp (Real.log s + d * 1) := fun s => rfl
  constructor
  · intro h
    show Real.exp (Real.log s0 + d * r) = s0 * Real.exp (d * r)
    rw [Real.exp_add, Real.exp_log h]
  · intro h
    induction n with
    | zero => simp
    | succ n ih =>
      rw [Function.iterate_succ_apply', ih, hstep]
      rw [mul_one, Real.exp_add, Real.exp_log (mul_pos h (Real.exp_pos _))]
      rw [mul_assoc, ← Real.exp_add, Nat.cast_succ, add_mul, one_mul]

/-- C6 witness: two consecutive unit-resolved ChangeSpeed(1) applications on
speed `1` yield `1 * exp (2 * 1)`. -/
theorem C6_witness :
    (apply_action trivialRotOps 1 1 true (.changeSpeed 1)
        (1, (⟨Vec3.zero, ()⟩ : Transform Unit))).1 = 1 * Real.exp (1 * 1)
    ∧ (fun s => (apply_action trivialRotOps 1 1 true (.changeSpeed 1)
        (s, (⟨Vec3.zero, ()⟩ : Transform Unit))).1)^[2] 1
        = 1 * Real.exp (((2 : ℕ) : ℝ) * 1) := by
  have h := C6_change_speed_exp Unit trivialRotOps 1 1 1 1 true ⟨Vec3.zero, ()⟩ 2
  exact ⟨h.1 one_pos, h.2 one_pos⟩

/-- C8: two spring-arm configurations agreeing on `distance`, `camera_radius`
and `query_filter` (so differing at most in the unused fields `yaw`, `pitch`,
`camera_yaw`, `camera_pitch`, `camera_roll`) produce the same shape-caster
parameters and the same camera translation. -/
theorem C8_unused_fields (a b : CameraSpringArm)
    (h1 : a.distance = b.distance) (h2 : a.camera_radius = b.camera_radius)
    (h3 : a.query_filter = b.query_filter) :
    (∀ sc, update_camera_spring_arm_shape_raycaster a sc
        = update_camera_spring_arm_shape_raycaster b sc)
    ∧ (∀ sc hits, update_camera_spring_arm a sc hits
        = update_camera_spring_arm b sc hits) := by
  constructor
  · intro sc
    simp [update_camera_spring_arm_shape_raycaster, h1, h2, h3]
  · intro sc hits
    cases hits <;> simp [update_camera_spring_arm, h1]

/-- A spring-arm configuration for the C8 witness. -/
def armA : CameraSpringArm :=
  { distance := 10, yaw := 1, pitch := 2, camera_yaw := 3, camera_pitch := 4
    camera_roll := 5, camera_radius := 1, query_filter := ⟨0⟩ }

/-- The same configuration with different values in the unused fields. -/
def armB : CameraSpringArm :=
  { distance := 10, yaw := 6, pitch := 7, camera_yaw := 8, camera_pitch := 9
    camera_roll := 10, camera_radius := 1, query_filter := ⟨0⟩ }

/-- C8 witness: two concrete configurations differing only in `yaw`, `pitch`
and the `camera_*` angles yield identical caster parameters and translation. -/
theorem C8_witness :
    update_camera_spring_arm_shape_raycaster armA sc0
        = update_camera_spring_arm_shape_raycaster armB sc0
    ∧ update_camera_spring_arm armA sc0 []
        = update_camera_spring_arm armB sc0 [] :=
  ⟨(C8_unused_fields armA armB rfl rfl rfl).1 sc0,
    (C8_unused_fields armA armB rfl rfl rfl).2 sc0 []⟩

/-- A move-local rule never changes the speed component. -/
lemma step_rule_fst_moveLocal {Rot : Type} (ops : RotOps Rot) (st : InputState)
    (conds : List FlyCameraInput) (x : Vec3) (s : ℝ × Transform Rot) :
    (step_rule ops st (conds, .moveLocal x) s).1 = s.1 := by
  unfold step_rule
  cases resolve_set st conds <;> rfl

/-- A rotate rule never changes the speed component. -/
lemma step_rule_fst_rotateEuler {Rot : Type} (ops : RotOps Rot) (st : InputState)
    (conds : List FlyCameraInput) (x : Vec3) (s : ℝ × Transform Rot) :
    (step_rule ops st (conds, .rotateEuler x) s).1 = s.1 := by
  unfold step_rule
  cases resolve_set st conds <;> rfl

/-- A ChangeSpeed rule keeps a positive speed positive (skipped, or the
result of `exp`). -/
lemma step_rule_changeSpeed_pos {Rot : Type} (ops : RotOps Rot) (st : InputState)
    (conds : List FlyCameraInput) (d : ℝ) (s : ℝ × Transform Rot)
    (hs : 0 < s.1) : 0 < (step_rule ops st (conds, .changeSpeed d) s).1 := by
  unfold step_rule
  cases resolve_set st conds with
  | none => exact hs
  | some sum => exact Real.exp_pos _

/-- A condition set made of key/button conditions only can only resolve to `1`. -/
lemma resolve_set_eq_one_of_bool (st : InputState) :
    ∀ (conds : List FlyCameraInput), (∀ c ∈ conds, isBooleanCond c = true) →
      ∀ v : ℝ, resolve_set st conds = some v → v = 1 := by
  intro conds
  induction conds with
  | nil =>
    intro _ v hv
    simp [resolve_set] at hv
    exact hv.symm
  | cons c rest ih =>
    intro hb v hv
    rw [resolve_set_cons] at hv
    cases hc : resolve_input st c with
    | none => rw [hc] at hv; exact absurd hv (by simp)
    | some w =>
      rw [hc] at hv
      cases hr : resolve_set st rest with
      | none => rw [hr] at hv; exact absurd hv (by simp)
      | some p =>
        rw [hr] at hv
        simp only [Option.some.injEq] at hv
        have hw : w = 1 := resolve_input_eq_one_of_bool st c (hb c (by simp)) w hc
        have hp : p = 1 :=
          ih (fun c' hc' => hb c' (List.mem_cons_of_mem _ hc')) p hr
        rw [← hv, hw, hp, mul_one]

/-- A SetSpeed rule with positive target and key/button-only conditions keeps
a positive speed positive. -/
lemma step_rule_setSpeed_pos {Rot : Type} (ops : RotOps Rot) (st : InputState)
    (conds : List FlyCameraInput) (x : ℝ) (hx : 0 < x)
    (hb : ∀ c ∈ conds, isBooleanCond c = true) (s : ℝ × Transform Rot)
    (hs : 0 < s.1) : 0 < (step_rule ops st (conds, .setSpeed x) s).1 := by
  unfold step_rule
  cases hr : resolve_set st conds with
  | none => exact hs
  | some sum =>
    have h1 : sum = 1 := resolve_set_eq_one_of_bool st conds hb sum hr
    show 0 < x * sum
    rw [h1, mul_one]
    exact hx

/-- Every rule of the default binding table keeps a positive speed positive. -/
lemma step_rule_default_pos {Rot : Type} (ops : RotOps Rot) (st : InputState)
    (rule : FlyCameraRule) (hrule : rule ∈ FlyCameraInputs.default.rules)
    (s : ℝ × Transform Rot) (hs : 0 < s.1) :
    0 < (step_rule ops st rule s).1 := by
  simp only [FlyCameraInputs.default, List.mem_cons, List.not_mem_nil,
    or_false] at hrule
  rcases hrule with rfl|rfl|rfl|rfl|rfl|rfl|rfl|rfl|rfl|rfl|rfl|rfl|rfl|
    rfl|rfl|rfl|rfl|rfl|rfl|rfl|rfl|rfl|rfl|rfl|rfl|rfl
  all_goals first
    | (rw [step_rule_fst_moveLocal]; exact hs)
    | (rw [step_rule_fst_rotateEuler]; exact hs)
    | exact step_rule_changeSpeed_pos ops st _ _ s hs
    | exact step_rule_setSpeed_pos ops st _ _ (by norm_num) (by decide) s hs

/-- Folding rule steps over any sub-collection of the default table preserves
speed positivity. -/
lemma foldl_step_rule_pos {Rot : Type} (ops : RotOps Rot) (st : InputState) :
    ∀ (rules : List FlyCameraRule),
      (∀ r ∈ rules, r ∈ FlyCameraInputs.default.rules) →
      ∀ (s : ℝ × Transform Rot), 0 < s.1 →
      0 < (rules.foldl (fun s rule => step_rule ops st rule s) s).1 := by
  intro rules
  induction rules with
  | nil => intro _ s hs; simpa using hs
  | cons r rest ih =>
    intro hmem s hs
    rw [List.foldl_cons]
    exact ih (fun r' hr' => hmem r' (List.mem_cons_of_mem _ hr')) _
      (step_rule_default_pos ops st r (hmem r (by simp)) s hs)

/-- C10: under the default binding table a positive speed stays positive
across a whole frame (ChangeSpeed always produces `exp`, which is positive,
and every default SetSpeed rule sets a positive constant times a resolved
value of `1`); moreover the ScrollY ChangeSpeed rule always resolves, even
with zero scroll delta, since continuous axes are never absent. -/
theorem C10_default_speed_positive (Rot : Type) (ops : RotOps Rot)
    (st : InputState) (controller : FlyCameraController) (tf : Transform Rot)
    (hdef : controller.inputs = FlyCameraInputs.default)
    (hpos : 0 < controller.speed) :
    0 < (fly_camera_controller ops st controller tf).1.speed
    ∧ resolve_set st [FlyCameraInput.scrollY] = some (wheel_delta st).y := by
  constructor
  · obtain ⟨sp, inp⟩ := controller
    dsimp only at hdef hpos
    subst hdef
    exact foldl_step_rule_pos ops st FlyCameraInputs.default.rules
      (fun r hr => hr) (sp, tf) hpos
  · rw [resolve_set_cons]
    simp [resolve_set, resolve_input]

/-- C10 witness: a concrete camera with speed `1` and the default table keeps
a positive speed on an inert frame. -/
theorem C10_witness :
    0 < (fly_camera_controller trivialRotOps stInert
        { speed := 1, inputs := FlyCameraInputs.default }
        (⟨Vec3.zero, ()⟩ : Transform Unit)).1.speed
    ∧ resolve_set stInert [FlyCameraInput.scrollY]
        = some (wheel_delta stInert).y :=
  C10_default_speed_positive Unit trivialRotOps stInert
    { speed := 1, inputs := FlyCameraInputs.default } ⟨Vec3.zero, ()⟩
    rfl one_pos

end DenshiIka
